import Mathlib

/-!
Shallow embedding of `scripts/update_readme.py` (GitHub profile README
updater).  Documents and JSON strings are modelled as `List Char`; Python
string comparison (`<`, `>=`) is code-point lexicographic comparison;
`None`-able JSON values are `Option`; a failed API fetch is `none`.
The network boundary is modelled by passing the fetched JSON data as
arguments to the collector functions.
-/

namespace UpdateReadme

/-- Python lexicographic string `<` on code points (`a < b` for `str`). -/
def strLt : List Char → List Char → Bool
  | _, [] => false
  | [], _ :: _ => true
  | a :: as, b :: bs =>
    if a.toNat < b.toNat then true
    else if b.toNat < a.toNat then false
    else strLt as bs

/-- Python `str.lower()` (ASCII model, matching the ASCII data in this script). -/
def listLower (l : List Char) : List Char := l.map Char.toLower

/-- The module constant `GITHUB_USERNAME = "jimyag"`. -/
def GITHUB_USERNAME : List Char := "jimyag".data

/-- The literal `"0123456789abcdef"` used by the hash-like-owner filter. -/
def HEX_DIGITS : List Char := "0123456789abcdef".data

/-- One element of the `/releases` JSON list (the fields the script reads). -/
structure Release where
  published_at : Option (List Char)
  tag_name : List Char
  html_url : List Char
  deriving DecidableEq

/-- One element of the `/tags` JSON list (the field the script reads). -/
structure Tag where
  name : List Char
  deriving DecidableEq

/-- One repository object of the `/users/{u}/repos` JSON list, bundled with
the results of the three per-repository sub-fetches (`none` = failed fetch;
only the length of the commits list is used by the script). -/
structure RepoData where
  fork : Bool
  name : List Char
  html_url : List Char
  pushed_at : Option (List Char)
  commits : Option (List Unit)
  releases : Option (List Release)
  tags : Option (List Tag)
  deriving DecidableEq

/-- The dict appended by `get_own_repos_activity` (`"type": "repo"`). -/
structure RepoRecord where
  name : List Char
  url : List Char
  commit_count : Nat
  has_release : Bool
  latest_tag : Option (List Char)
  latest_tag_url : Option (List Char)
  latest_activity : List Char
  deriving DecidableEq

/-- The dict appended by `get_open_source_contributions` (`"type": "contribution"`). -/
structure ContribRecord where
  name : List Char
  url : List Char
  pr_count : Nat
  latest_activity : List Char
  deriving DecidableEq

/-- The two record shapes, tagged as by the `"type"` key. -/
inductive Activity where
  | repo : RepoRecord → Activity
  | contribution : ContribRecord → Activity
  deriving DecidableEq

/-- The shared sort key `x["latest_activity"]`. -/
def Activity.latest_activity : Activity → List Char
  | .repo r => r.latest_activity
  | .contribution c => c.latest_activity

/-- `commit_count = len(commits) if commits else 0` (Python truthiness:
`None` and the empty list both give 0). -/
def commitCount (repo : RepoData) : Nat :=
  match repo.commits with
  | none => 0
  | some cs => if cs.isEmpty then 0 else cs.length

/-- The per-release test `release.get("published_at") and
release["published_at"] >= cutoff_iso` (truthiness: `None` and `""` fail). -/
def releaseRecent (cutoff : List Char) (r : Release) : Bool :=
  match r.published_at with
  | none => false
  | some p => !p.isEmpty && !strLt p cutoff

/-- The `recent_releases` list built by the loop over `releases`
(`if releases:` guards a loop, so `None` and `[]` both yield `[]`). -/
def recentReleases (cutoff : List Char) (repo : RepoData) : List Release :=
  match repo.releases with
  | none => []
  | some rs => rs.filter (releaseRecent cutoff)

/-- Python truthiness of an optional string: `None` and `""` are falsy. -/
def optStrFalsy : Option (List Char) → Bool
  | none => true
  | some s => s.isEmpty

/-- Lines 169-188: choice of `latest_tag` / `latest_tag_url` from the recent
releases, falling back to the tags list when `latest_tag` is falsy
(`if not latest_tag:` followed by `if tags and len(tags) > 0:`). -/
def tagSelection (cutoff : List Char) (repo : RepoData) :
    Option (List Char) × Option (List Char) :=
  let recent := recentReleases cutoff repo
  let latest_tag : Option (List Char) :=
    match recent with
    | [] => none
    | r :: _ => some r.tag_name
  let latest_tag_url : Option (List Char) :=
    match recent with
    | [] => none
    | r :: _ => some r.html_url
  if optStrFalsy latest_tag then
    match repo.tags with
    | none => (latest_tag, latest_tag_url)
    | some [] => (latest_tag, latest_tag_url)
    | some (t :: _) =>
        (some t.name, some (repo.html_url ++ "/releases/tag/".data ++ t.name))
  else (latest_tag, latest_tag_url)

/-- The body of the `for repo in repos:` loop of `get_own_repos_activity`:
`none` when the loop `continue`s, otherwise the appended record. -/
def processRepo (cutoff : List Char) (repo : RepoData) : Option RepoRecord :=
  if repo.fork then none
  else if listLower repo.name = listLower GITHUB_USERNAME then none
  else
    match repo.pushed_at with
    | none => none
    | some pushed_at =>
      if pushed_at.isEmpty then none
      else if strLt pushed_at cutoff then none
      else if commitCount repo = 0 then none
      else
        some { name := repo.name
               url := repo.html_url
               commit_count := commitCount repo
               has_release := (recentReleases cutoff repo).length > 0
               latest_tag := (tagSelection cutoff repo).1
               latest_tag_url := (tagSelection cutoff repo).2
               latest_activity := pushed_at }

/-- `get_own_repos_activity`, with the `/users/{u}/repos` response passed in
(`none` = failed request; `if not repos: return []` also covers `[]`). -/
def get_own_repos_activity (cutoff : List Char) (repos : Option (List RepoData)) :
    List Activity :=
  match repos with
  | none => []
  | some rs =>
    if rs.isEmpty then []
    else rs.filterMap (fun r => (processRepo cutoff r).map Activity.repo)

/-- `pullRequest` node data used by the contributions collector. -/
structure PRNode where
  mergedAt : Option (List Char)
  deriving DecidableEq

/-- The `repository` object of one GraphQL contribution bucket. -/
structure ContribRepoInfo where
  nameWithOwner : List Char
  url : List Char
  isPrivate : Bool
  owner_login : List Char
  deriving DecidableEq

/-- One element of `pullRequestContributionsByRepository`. -/
structure RepoContribution where
  repository : ContribRepoInfo
  nodes : List PRNode
  deriving DecidableEq

/-- The filter `pr["pullRequest"]["mergedAt"] is not None and
pr["pullRequest"]["mergedAt"] >= cutoff_iso`. -/
def prQualifies (cutoff : List Char) (n : PRNode) : Bool :=
  match n.mergedAt with
  | none => false
  | some m => !strLt m cutoff

/-- Stable insertion for a descending sort by a string key: the new element
goes after every earlier element whose key is strictly greater, and before
the first element whose key is not greater (so equal keys keep their order).
This is the behaviour of Python `list.sort(key=..., reverse=True)`. -/
def insertByKeyDesc {α : Type} (key : α → List Char) (x : α) : List α → List α
  | [] => [x]
  | y :: ys =>
    if strLt (key x) (key y) then y :: insertByKeyDesc key x ys
    else x :: y :: ys

/-- Stable descending sort by a string key (model of
`list.sort(key=lambda x: x[...], reverse=True)`). -/
def sortByKeyDesc {α : Type} (key : α → List Char) : List α → List α
  | [] => []
  | x :: xs => insertByKeyDesc key x (sortByKeyDesc key xs)

/-- The body of the `for repo_contribution in pr_repos:` loop of
`get_open_source_contributions`: `none` when skipped, otherwise the record. -/
def processContribRepo (cutoff : List Char) (rc : RepoContribution) :
    Option ContribRecord :=
  if rc.repository.isPrivate then none
  else if listLower rc.repository.owner_login = listLower GITHUB_USERNAME then none
  else if decide (30 < rc.repository.owner_login.length)
      && (listLower rc.repository.owner_login).all (fun c => HEX_DIGITS.elem c) then none
  else
    let merged_prs := rc.nodes.filter (prQualifies cutoff)
    if merged_prs.isEmpty then none
    else
      match sortByKeyDesc (fun n => n.mergedAt.getD []) merged_prs with
      | [] => none
      | latest_pr :: _ =>
        some { name := rc.repository.nameWithOwner
               url := rc.repository.url
               pr_count := merged_prs.length
               latest_activity := latest_pr.mergedAt.getD [] }

/-- `get_open_source_contributions`, with the parsed GraphQL repository list
passed in (`none` = failed request or missing `"data"` key). -/
def get_open_source_contributions (cutoff : List Char)
    (result : Option (List RepoContribution)) : List Activity :=
  match result with
  | none => []
  | some pr_repos =>
    pr_repos.filterMap (fun rc => (processContribRepo cutoff rc).map Activity.contribution)

/-- `get_all_activity` lines 214-217: concatenate the two collectors'
outputs, sort descending by `latest_activity`, truncate to `limit`. -/
def get_all_activity (own_repos contributions : List Activity) (limit : Nat) :
    List Activity :=
  let all_activity := own_repos ++ contributions
  (sortByKeyDesc Activity.latest_activity all_activity).take limit

/-- f-string interpolation of an optional string (Python renders `None`). -/
def optInterp : Option (List Char) → List Char
  | none => "None".data
  | some s => s

/-- Python truthiness of `item["latest_tag"]` (`None` and `""` falsy). -/
def optTruthy : Option (List Char) → Bool
  | none => false
  | some s => !s.isEmpty

/-- The `stats` list built for a `"repo"` item (lines 229-233). -/
def repoStats (r : RepoRecord) : List (List Char) :=
  (if r.commit_count > 0 then [Nat.toDigits 10 r.commit_count ++ " commits".data] else [])
    ++ (if optTruthy r.latest_tag then
          ["[".data ++ optInterp r.latest_tag ++ "](".data
            ++ optInterp r.latest_tag_url ++ ")".data]
        else [])

/-- The rendered line for a `"repo"` item (lines 235-237). -/
def renderRepoLine (r : RepoRecord) : List Char :=
  "- [".data ++ r.name ++ "](".data ++ r.url ++ ")".data
    ++ (if (repoStats r).isEmpty then []
        else " (".data ++ List.intercalate (", ".data) (repoStats r) ++ ")".data)

/-- The rendered line for a `"contribution"` item (lines 240-241). -/
def renderContribLine (c : ContribRecord) : List Char :=
  "- [".data ++ c.name ++ "](".data ++ c.url ++ ") (".data
    ++ Nat.toDigits 10 c.pr_count ++ " merged ".data
    ++ (if c.pr_count = 1 then "PR".data else "PRs".data) ++ ")".data

/-- Dispatch on `item["type"]`. -/
def renderLine : Activity → List Char
  | .repo r => renderRepoLine r
  | .contribution c => renderContribLine c

/-- `generate_activity_markdown`. -/
def generate_activity_markdown (activities : List Activity) : List Char :=
  if activities.isEmpty then "_No recent activity_".data
  else List.intercalate ("\n".data) (activities.map renderLine)

/-- Leftmost occurrence split: `splitFirst pat s = some (pre, post)` when
`s = pre ++ pat ++ post` and this is the leftmost occurrence of `pat`. -/
def splitFirst (pat : List Char) : List Char → Option (List Char × List Char)
  | [] => if pat = [] then some ([], []) else none
  | c :: cs =>
    if pat.isPrefixOf (c :: cs) then some ([], (c :: cs).drop pat.length)
    else
      match splitFirst pat cs with
      | none => none
      | some (pre, post) => some (c :: pre, post)

/-- `pattern.search(content)` for the pattern `START(.*?)END` with DOTALL:
a match exists iff some end marker occurs after the first start marker. -/
def searchPair (S E s : List Char) : Bool :=
  match splitFirst S s with
  | none => false
  | some (_, rest) => (splitFirst E rest).isSome

/-- One element of a parsed `re.sub` replacement template: a literal chunk
or a group reference, as produced by CPython's `re._parser.parse_template`. -/
inductive TemplateItem where
  | lit : List Char → TemplateItem
  | group : Nat → TemplateItem

def isAsciiLetter (c : Char) : Bool :=
  (97 ≤ c.toNat && c.toNat ≤ 122) || (65 ≤ c.toNat && c.toNat ≤ 90)

def isDigitChar (c : Char) : Bool := 48 ≤ c.toNat && c.toNat ≤ 57

def isOctDigit (c : Char) : Bool := 48 ≤ c.toNat && c.toNat ≤ 55

def digitVal (c : Char) : Nat := c.toNat - 48

/-- The `ESCAPES` table of `re._parser` (`\a \b \f \n \r \t \v \\`). -/
def escChar : Char → Option Char
  | 'a' => some (Char.ofNat 7)
  | 'b' => some (Char.ofNat 8)
  | 'f' => some (Char.ofNat 12)
  | 'n' => some '\n'
  | 'r' => some (Char.ofNat 13)
  | 't' => some '\t'
  | 'v' => some (Char.ofNat 11)
  | '\\' => some '\\'
  | _ => none

/-- Python whitespace stripped by `int()` (ASCII part). -/
def isPySpace (c : Char) : Bool :=
  c = ' ' || c = '\t' || c.toNat = 10 || c.toNat = 13 || c.toNat = 11 || c.toNat = 12

/-- Digits of a Python `int()` literal, allowing single underscores between
digits (`none` models `ValueError`). -/
def pyIntDigits : Nat → List Char → Option Nat
  | acc, [] => some acc
  | acc, c :: cs =>
    if isDigitChar c then pyIntDigits (acc * 10 + digitVal c) cs
    else if c = '_' then
      match cs with
      | d :: cs2 => if isDigitChar d then pyIntDigits (acc * 10 + digitVal d) cs2 else none
      | [] => none
    else none

/-- Python `int(str)` (ASCII model: optional surrounding whitespace,
optional sign, decimal digits with single underscores between digits). -/
def pyInt (l : List Char) : Option Int :=
  let t := ((l.dropWhile isPySpace).reverse.dropWhile isPySpace).reverse
  match t with
  | [] => none
  | '+' :: rest =>
    match rest with
    | c :: _ => if isDigitChar c then (pyIntDigits 0 rest).map Int.ofNat else none
    | [] => none
  | '-' :: rest =>
    match rest with
    | c :: _ =>
      if isDigitChar c then (pyIntDigits 0 rest).map (fun n => -(Int.ofNat n)) else none
    | [] => none
  | c :: _ => if isDigitChar c then (pyIntDigits 0 t).map Int.ofNat else none

def isIdentChar (c : Char) : Bool := isAsciiLetter c || isDigitChar c || c = '_'

/-- Python `str.isidentifier` (ASCII model). -/
def pyIsIdentifier : List Char → Bool
  | [] => false
  | c :: cs => (isAsciiLetter c || c = '_') && cs.all isIdentChar

/-- Fuelled model of CPython `re._parser.parse_template` for a pattern with
`groups` capturing groups and no named groups (the script's marker pattern
has three groups and an empty `groupindex`): `\\` and `\a \b \f \n \r \t
\v` are escapes, `\g<...>` and `\1`..`\99` are group references (with the
two-digit / three-octal-digit lookahead of the source), `\0..` is an octal
escape, a backslash before any other ASCII letter or at the end of the
string raises `re.error` (modelled as `none`), and a backslash before any
other character is kept together with it.  One unit of fuel is spent per
produced item, so fuel `l.length` always suffices. -/
def parseTemplateF (groups : Nat) : Nat → List Char → Option (List TemplateItem)
  | _, [] => some []
  | 0, _ :: _ => none
  | n + 1, c :: rest =>
    if c = '\\' then
      match rest with
      | [] => none
      | d :: rest2 =>
        if d = 'g' then
          match rest2 with
          | '<' :: rest3 =>
            match splitFirst ['>'] rest3 with
            | none => none
            | some (name, rest4) =>
              if name.isEmpty then none
              else if pyIsIdentifier name then none
              else
                match pyInt name with
                | none => none
                | some i =>
                  if i < 0 then none
                  else if groups < i.toNat then none
                  else (parseTemplateF groups n rest4).map (TemplateItem.group i.toNat :: ·)
          | _ => none
        else if d = '0' then
          match rest2 with
          | e :: rest3 =>
            if isOctDigit e then
              match rest3 with
              | f :: rest4 =>
                if isOctDigit f then
                  (parseTemplateF groups n rest4).map
                    (TemplateItem.lit [Char.ofNat ((digitVal e * 8 + digitVal f) % 256)] :: ·)
                else
                  (parseTemplateF groups n rest3).map
                    (TemplateItem.lit [Char.ofNat (digitVal e % 256)] :: ·)
              | [] =>
                (parseTemplateF groups n []).map
                  (TemplateItem.lit [Char.ofNat (digitVal e % 256)] :: ·)
            else (parseTemplateF groups n rest2).map (TemplateItem.lit [Char.ofNat 0] :: ·)
          | [] => (parseTemplateF groups n []).map (TemplateItem.lit [Char.ofNat 0] :: ·)
        else if isDigitChar d then
          match rest2 with
          | e :: rest3 =>
            if isDigitChar e then
              match rest3 with
              | f :: rest4 =>
                if isOctDigit d && isOctDigit e && isOctDigit f then
                  if 255 < digitVal d * 64 + digitVal e * 8 + digitVal f then none
                  else
                    (parseTemplateF groups n rest4).map
                      (TemplateItem.lit
                        [Char.ofNat (digitVal d * 64 + digitVal e * 8 + digitVal f)] :: ·)
                else
                  if groups < digitVal d * 10 + digitVal e then none
                  else
                    (parseTemplateF groups n rest3).map
                      (TemplateItem.group (digitVal d * 10 + digitVal e) :: ·)
              | [] =>
                if groups < digitVal d * 10 + digitVal e then none
                else
                  (parseTemplateF groups n []).map
                    (TemplateItem.group (digitVal d * 10 + digitVal e) :: ·)
            else
              if groups < digitVal d then none
              else (parseTemplateF groups n rest2).map (TemplateItem.group (digitVal d) :: ·)
          | [] =>
            if groups < digitVal d then none
            else (parseTemplateF groups n []).map (TemplateItem.group (digitVal d) :: ·)
        else
          match escChar d with
          | some e => (parseTemplateF groups n rest2).map (TemplateItem.lit [e] :: ·)
          | none =>
            if isAsciiLetter d then none
            else (parseTemplateF groups n rest2).map (TemplateItem.lit ['\\', d] :: ·)
    else (parseTemplateF groups n rest).map (TemplateItem.lit [c] :: ·)

/-- `re._parser.parse_template(repl, pattern)`; `none` models `re.error`.
(When the replacement contains no backslash CPython skips this parse and
uses the string literally; on such strings the parse returns the all
literal template, so running it unconditionally is extensionally equal.) -/
def parse_template (groups : Nat) (repl : List Char) : Option (List TemplateItem) :=
  parseTemplateF groups repl.length repl

/-- Expansion of a parsed template at one match of the marker pattern
`(START)(.*?)(END)`: group 0 is the whole match, groups 1-3 the three
capturing groups.  The parser bounds group numbers by the pattern's group
count, so the final catch-all arm is unreachable for templates it accepts. -/
def expandTemplate (whole g1 g2 g3 : List Char) : List TemplateItem → List Char
  | [] => []
  | TemplateItem.lit l :: items => l ++ expandTemplate whole g1 g2 g3 items
  | TemplateItem.group i :: items =>
    (if i = 0 then whole
     else if i = 1 then g1
     else if i = 2 then g2
     else if i = 3 then g3
     else []) ++ expandTemplate whole g1 g2 g3 items

/-- Fuelled global substitution for the regex `S(.*?)E` (DOTALL): replace
each leftmost S..nearest-E segment by `repf mid` (the replacement may
depend on the matched middle, as a template expansion does) and continue
after it, as Python `pattern.sub(repl, content)` does. -/
def subAllF (S E : List Char) (repf : List Char → List Char) : Nat → List Char → List Char
  | 0, s => s
  | n + 1, s =>
    match splitFirst S s with
    | none => s
    | some (pre, rest) =>
      match splitFirst E rest with
      | none => s
      | some (mid, rest2) => pre ++ repf mid ++ subAllF S E repf n rest2

/-- The match loop of `pattern.sub(repl, content)`: the fuel `s.length`
always suffices because the start marker is non-empty. -/
def subAll (S E : List Char) (repf : List Char → List Char) (s : List Char) : List Char :=
  subAllF S E repf s.length s

/-- `start_marker = f"<!-- {section_name}_START -->"`. -/
def startMarker (section_name : List Char) : List Char :=
  "<!-- ".data ++ section_name ++ "_START -->".data

/-- `end_marker = f"<!-- {section_name}_END -->"`. -/
def endMarker (section_name : List Char) : List Char :=
  "<!-- ".data ++ section_name ++ "_END -->".data

/-- `update_readme_section(content, section_name, new_content)`.  The
replacement string is processed as an `re.sub` template (the pattern has 3
groups), so a bad escape in it raises `re.error`, modelled as `none`; this
can only happen after a successful search, since otherwise `pattern.sub`
is never called. -/
def update_readme_section (content section_name new_content : List Char) :
    Option (List Char) :=
  let start_marker := startMarker section_name
  let end_marker := endMarker section_name
  let replacement := start_marker ++ ['\n'] ++ new_content ++ ['\n'] ++ end_marker
  if searchPair start_marker end_marker content then
    match parse_template 3 replacement with
    | none => none
    | some items =>
      some (subAll start_marker end_marker
        (fun mid =>
          expandTemplate (start_marker ++ mid ++ end_marker)
            start_marker mid end_marker items)
        content)
  else some content

/-- `clean pat pre` says the leftmost occurrence of `pat` in `pre ++ pat`
is the final one: no occurrence lies inside `pre` or straddles into it. -/
abbrev clean (pat pre : List Char) : Prop :=
  splitFirst pat (pre ++ pat) = some (pre, [])

theorem isPrefixOf_iff {p s : List Char} : p.isPrefixOf s = true ↔ ∃ t, s = p ++ t := by
  induction p generalizing s with
  | nil => simp [List.isPrefixOf]
  | cons a as ih =>
    cases s with
    | nil => simp [List.isPrefixOf]
    | cons b bs =>
      simp only [List.isPrefixOf, Bool.and_eq_true, beq_iff_eq, ih, List.cons_append,
        List.cons.injEq]
      constructor
      · rintro ⟨rfl, t, rfl⟩; exact ⟨t, rfl, rfl⟩
      · rintro ⟨t, rfl, rfl⟩; exact ⟨rfl, t, rfl⟩

theorem splitFirst_decomp {pat s pre post : List Char}
    (h : splitFirst pat s = some (pre, post)) : s = pre ++ pat ++ post := by
  induction s generalizing pre post with
  | nil =>
    rw [splitFirst] at h
    by_cases hp : pat = []
    · rw [if_pos hp] at h
      injection h with h
      injection h with h1 h2
      simp [← h1, ← h2, hp]
    · rw [if_neg hp] at h; exact absurd h (by simp)
  | cons c cs ih =>
    rw [splitFirst] at h
    by_cases hpre : pat.isPrefixOf (c :: cs) = true
    · rw [if_pos hpre] at h
      obtain ⟨t, ht⟩ := isPrefixOf_iff.mp hpre
      injection h with h
      injection h with h1 h2
      rw [ht, List.drop_left] at h2
      subst h2
      simp [← h1, ht]
    · rw [if_neg hpre] at h
      cases hrec : splitFirst pat cs with
      | none => rw [hrec] at h; exact absurd h (by simp)
      | some pr =>
        obtain ⟨pre', post'⟩ := pr
        rw [hrec] at h
        injection h with h
        injection h with h1 h2
        subst h2
        rw [← h1, List.cons_append, List.cons_append, ih hrec]

theorem splitFirst_minimal {pat s pre post : List Char}
    (h : splitFirst pat s = some (pre, post)) :
    ∀ a b, s = a ++ pat ++ b → pre.length ≤ a.length := by
  induction s generalizing pre post with
  | nil =>
    intro a b hab
    rw [splitFirst] at h
    by_cases hp : pat = []
    · rw [if_pos hp] at h
      injection h with h
      injection h with h1 h2
      rw [← h1]; exact Nat.zero_le _
    · rw [if_neg hp] at h; exact absurd h (by simp)
  | cons c cs ih =>
    intro a b hab
    rw [splitFirst] at h
    by_cases hpre : pat.isPrefixOf (c :: cs) = true
    · rw [if_pos hpre] at h
      injection h with h
      injection h with h1 h2
      rw [← h1]; exact Nat.zero_le _
    · rw [if_neg hpre] at h
      cases hrec : splitFirst pat cs with
      | none => rw [hrec] at h; exact absurd h (by simp)
      | some pr =>
        obtain ⟨pre', post'⟩ := pr
        rw [hrec] at h
        injection h with h
        injection h with h1 h2
        cases a with
        | nil =>
          exfalso
          apply hpre
          exact isPrefixOf_iff.mpr ⟨b, by simpa using hab⟩
        | cons a' as' =>
          rw [List.cons_append, List.cons_append] at hab
          injection hab with hab1 hab2
          rw [← h1]
          simpa using ih hrec as' b hab2

theorem splitFirst_of_minimal {pat pre : List Char}
    (hmin : ∀ a b, pre ++ pat = a ++ pat ++ b → pre.length ≤ a.length)
    (y : List Char) : splitFirst pat (pre ++ pat ++ y) = some (pre, y) := by
  induction pre with
  | nil =>
    cases hp : pat with
    | nil =>
      cases y with
      | nil => simp [splitFirst]
      | cons c cs => simp [splitFirst, List.isPrefixOf]
    | cons p ps =>
      rw [← hp]
      have hpre : pat.isPrefixOf (pat ++ y) = true := isPrefixOf_iff.mpr ⟨y, rfl⟩
      have hne : pat ++ y = [] → False := by
        intro hcontra
        rw [hp] at hcontra
        exact absurd hcontra (by simp)
      cases hcase : pat ++ y with
      | nil => exact absurd hcase hne
      | cons d ds =>
        simp only [List.nil_append]
        rw [hcase, splitFirst, ← hcase, if_pos hpre, List.drop_left]
  | cons c pre' ih =>
    have hmin' : ∀ a b, pre' ++ pat = a ++ pat ++ b → pre'.length ≤ a.length := by
      intro a b hab
      have := hmin (c :: a) b (by simp [hab, List.append_assoc])
      simpa using this
    have hnotpre : ¬ pat.isPrefixOf ((c :: pre') ++ pat ++ y) = true := by
      intro hpre
      obtain ⟨t, ht⟩ := isPrefixOf_iff.mp hpre
      -- `pat` would occur at position 0 of `(c :: pre') ++ pat`, forcing
      -- `(c :: pre').length ≤ 0` by minimality.
      rcases List.append_eq_append_iff.mp ht with ⟨a', ha', _⟩ | ⟨c', hc', _⟩
      · have := congrArg List.length ha'
        simp [List.length_append] at this
        omega
      · have := hmin [] c' (by simpa using hc')
        simp at this
    rw [List.cons_append, List.cons_append, splitFirst,
      if_neg (by simpa [List.cons_append] using hnotpre), ih hmin']

theorem clean_of_splitFirst {pat s pre post : List Char}
    (h : splitFirst pat s = some (pre, post)) : clean pat pre := by
  have hdec := splitFirst_decomp h
  have hmin : ∀ a b, pre ++ pat = a ++ pat ++ b → pre.length ≤ a.length := by
    intro a b hab
    exact splitFirst_minimal h a (b ++ post)
      (by rw [hdec, List.append_assoc, List.append_assoc, ← List.append_assoc pat b post,
            ← List.append_assoc a (pat ++ b) post, ← List.append_assoc a pat b, ← hab,
            List.append_assoc])
  have := splitFirst_of_minimal hmin []
  simpa using this

theorem clean_split {pat pre : List Char} (h : clean pat pre) (y : List Char) :
    splitFirst pat (pre ++ pat ++ y) = some (pre, y) := by
  apply splitFirst_of_minimal
  intro a b hab
  exact splitFirst_minimal (s := pre ++ pat) (by simpa using h) a b hab

theorem splitFirst_nil {pat : List Char} (h : pat ≠ []) : splitFirst pat [] = none := by
  simp [splitFirst, h]

theorem rest2_length {S E s pre rest mid rest2 : List Char} (hS : S ≠ [])
    (h1 : splitFirst S s = some (pre, rest)) (h2 : splitFirst E rest = some (mid, rest2)) :
    rest2.length < s.length := by
  have d1 := splitFirst_decomp h1
  have d2 := splitFirst_decomp h2
  have hSlen : 0 < S.length := List.length_pos.mpr hS
  rw [d1, d2]
  simp [List.length_append]
  omega

theorem subAllF_congr {S E : List Char} {repf : List Char → List Char} (hS : S ≠ []) :
    ∀ n m s, s.length ≤ n → s.length ≤ m →
      subAllF S E repf n s = subAllF S E repf m s := by
  intro n
  induction n with
  | zero =>
    intro m s hn _
    have : s = [] := List.eq_nil_of_length_eq_zero (Nat.le_zero.mp hn)
    subst this
    cases m with
    | zero => rfl
    | succ m' => simp [subAllF, splitFirst_nil hS]
  | succ n' ih =>
    intro m s hn hm
    cases m with
    | zero =>
      have : s = [] := List.eq_nil_of_length_eq_zero (Nat.le_zero.mp hm)
      subst this
      simp [subAllF, splitFirst_nil hS]
    | succ m' =>
      rw [subAllF, subAllF]
      cases h1 : splitFirst S s with
      | none => rfl
      | some pr1 =>
        obtain ⟨pre, rest⟩ := pr1
        cases h2 : splitFirst E rest with
        | none => simp only [h2]
        | some pr2 =>
          obtain ⟨mid, rest2⟩ := pr2
          have hlt := rest2_length hS h1 h2
          simp only [h2]
          rw [ih m' rest2 (by omega) (by omega)]

theorem subAll_no_start {S E s : List Char} {repf : List Char → List Char}
    (h : splitFirst S s = none) : subAll S E repf s = s := by
  rw [subAll]
  cases hls : s.length with
  | zero => rfl
  | succ k => rw [subAllF, h]

theorem subAll_no_end {S E s pre rest : List Char} {repf : List Char → List Char}
    (h1 : splitFirst S s = some (pre, rest)) (h2 : splitFirst E rest = none) :
    subAll S E repf s = s := by
  rw [subAll]
  cases hls : s.length with
  | zero => rfl
  | succ k => rw [subAllF]; simp only [h1, h2]

theorem subAll_step {S E s pre rest mid rest2 : List Char} {repf : List Char → List Char}
    (hS : S ≠ [])
    (h1 : splitFirst S s = some (pre, rest)) (h2 : splitFirst E rest = some (mid, rest2)) :
    subAll S E repf s = pre ++ repf mid ++ subAll S E repf rest2 := by
  have hlt := rest2_length hS h1 h2
  rw [subAll, subAll]
  cases hls : s.length with
  | zero => omega
  | succ k =>
    rw [subAllF]
    simp only [h1, h2]
    rw [subAllF_congr hS k rest2.length rest2 (by omega) (by omega)]

theorem startMarker_length (n : List Char) : (startMarker n).length = n.length + 15 := by
  rw [startMarker, List.length_append, List.length_append,
    show ("<!-- ".data).length = 5 from rfl, show ("_START -->".data).length = 10 from rfl]
  omega

theorem endMarker_length (n : List Char) : (endMarker n).length = n.length + 13 := by
  rw [endMarker, List.length_append, List.length_append,
    show ("<!-- ".data).length = 5 from rfl, show ("_END -->".data).length = 8 from rfl]
  omega

theorem startMarker_ne_nil (n : List Char) : startMarker n ≠ [] := by
  intro h
  have := startMarker_length n
  rw [h] at this
  simp at this

theorem searchPair_true {S E s pre rest : List Char}
    (h1 : splitFirst S s = some (pre, rest)) (h2 : (splitFirst E rest).isSome = true) :
    searchPair S E s = true := by
  rw [searchPair]
  simp only [h1]
  exact h2

theorem pair_occurs_of_searchPair {S E s : List Char} (h : searchPair S E s = true) :
    ∃ a b c, s = a ++ S ++ b ++ E ++ c := by
  rw [searchPair] at h
  cases h1 : splitFirst S s with
  | none => simp only [h1] at h; simp at h
  | some pr =>
    obtain ⟨pre, rest⟩ := pr
    simp only [h1] at h
    cases h2 : splitFirst E rest with
    | none => simp only [h2] at h; simp at h
    | some pr2 =>
      obtain ⟨mid, rest2⟩ := pr2
      exact ⟨pre, mid, rest2,
        by simp [splitFirst_decomp h1, splitFirst_decomp h2, List.append_assoc]⟩

theorem subAll_idem {S E wrap : List Char} (hS : S ≠ []) (hw : clean E wrap) :
    ∀ s, subAll S E (fun _ => S ++ wrap ++ E) (subAll S E (fun _ => S ++ wrap ++ E) s)
      = subAll S E (fun _ => S ++ wrap ++ E) s := by
  have main : ∀ n s, s.length ≤ n →
      subAll S E (fun _ => S ++ wrap ++ E) (subAll S E (fun _ => S ++ wrap ++ E) s)
        = subAll S E (fun _ => S ++ wrap ++ E) s := by
    intro n
    induction n with
    | zero =>
      intro s hs
      have : s = [] := List.eq_nil_of_length_eq_zero (Nat.le_zero.mp hs)
      subst this
      rw [subAll_no_start (splitFirst_nil hS), subAll_no_start (splitFirst_nil hS)]
    | succ n ih =>
      intro s hs
      cases h1 : splitFirst S s with
      | none => rw [subAll_no_start h1, subAll_no_start h1]
      | some pr =>
        obtain ⟨pre, rest⟩ := pr
        cases h2 : splitFirst E rest with
        | none => rw [subAll_no_end h1 h2, subAll_no_end h1 h2]
        | some pr2 =>
          obtain ⟨mid, rest2⟩ := pr2
          have hstep : subAll S E (fun _ => S ++ wrap ++ E) s
              = pre ++ (S ++ wrap ++ E) ++ subAll S E (fun _ => S ++ wrap ++ E) rest2 :=
            subAll_step hS h1 h2
          rw [hstep]
          have hclean_pre : clean S pre := clean_of_splitFirst h1
          have hshape : pre ++ (S ++ wrap ++ E) ++ subAll S E (fun _ => S ++ wrap ++ E) rest2
              = (pre ++ S)
                  ++ ((wrap ++ E) ++ subAll S E (fun _ => S ++ wrap ++ E) rest2) := by
            simp [List.append_assoc]
          have hsp1 := clean_split hclean_pre
            ((wrap ++ E) ++ subAll S E (fun _ => S ++ wrap ++ E) rest2)
          have hsp2 := clean_split hw (subAll S E (fun _ => S ++ wrap ++ E) rest2)
          have hstep2 : subAll S E (fun _ => S ++ wrap ++ E)
                ((pre ++ S) ++ ((wrap ++ E) ++ subAll S E (fun _ => S ++ wrap ++ E) rest2))
              = pre ++ (S ++ wrap ++ E)
                  ++ subAll S E (fun _ => S ++ wrap ++ E)
                      (subAll S E (fun _ => S ++ wrap ++ E) rest2) :=
            subAll_step hS hsp1 hsp2
          rw [hshape, hstep2]
          have hlt := rest2_length hS h1 h2
          rw [ih rest2 (by omega)]
          simp [List.append_assoc]
  intro s
  exact main s.length s (Nat.le_refl _)

theorem parseTemplateF_no_backslash {groups : Nat} {t : List Char} (h : '\\' ∉ t) :
    ∀ n, t.length ≤ n →
      parseTemplateF groups n t = some (t.map fun c => TemplateItem.lit [c]) := by
  induction t with
  | nil => intro n _; cases n <;> rfl
  | cons c rest ih =>
    intro n hn
    simp only [List.mem_cons, not_or] at h
    cases n with
    | zero => simp at hn
    | succ m =>
      simp only [parseTemplateF]
      rw [if_neg (Ne.symm h.1), ih h.2 m (by simpa using hn)]
      rfl

theorem expandTemplate_all_lit (whole g1 g2 g3 : List Char) :
    ∀ t : List Char,
      expandTemplate whole g1 g2 g3 (t.map fun c => TemplateItem.lit [c]) = t := by
  intro t
  induction t with
  | nil => rfl
  | cons c rest ih => rw [List.map_cons, expandTemplate, ih]; exact List.singleton_append

theorem backslash_not_mem_startMarker {section_name : List Char}
    (hn : '\\' ∉ section_name) : '\\' ∉ startMarker section_name := by
  intro h
  rw [startMarker] at h
  rcases List.mem_append.mp h with h | h
  · rcases List.mem_append.mp h with h | h
    · exact absurd h (by decide)
    · exact hn h
  · exact absurd h (by decide)

theorem backslash_not_mem_endMarker {section_name : List Char}
    (hn : '\\' ∉ section_name) : '\\' ∉ endMarker section_name := by
  intro h
  rw [endMarker] at h
  rcases List.mem_append.mp h with h | h
  · rcases List.mem_append.mp h with h | h
    · exact absurd h (by decide)
    · exact hn h
  · exact absurd h (by decide)

/-- When neither the section name nor the body contains a backslash, the
replacement template is all literal, so `update_readme_section` never
raises and each match is replaced by the fixed text
`START \n body \n END`. -/
theorem update_readme_section_no_backslash (content section_name new_content : List Char)
    (hn : '\\' ∉ section_name) (hb : '\\' ∉ new_content) :
    update_readme_section content section_name new_content
      = if searchPair (startMarker section_name) (endMarker section_name) content
        then some (subAll (startMarker section_name) (endMarker section_name)
          (fun _ => startMarker section_name ++ ['\n'] ++ new_content ++ ['\n']
            ++ endMarker section_name) content)
        else some content := by
  have hrepl : '\\' ∉ startMarker section_name ++ ['\n'] ++ new_content ++ ['\n']
      ++ endMarker section_name := by
    intro h
    rcases List.mem_append.mp h with h | h
    · rcases List.mem_append.mp h with h | h
      · rcases List.mem_append.mp h with h | h
        · rcases List.mem_append.mp h with h | h
          · exact backslash_not_mem_startMarker hn h
          · exact absurd h (by decide)
        · exact hb h
      · exact absurd h (by decide)
    · exact backslash_not_mem_endMarker hn h
  have hp : parse_template 3 (startMarker section_name ++ ['\n'] ++ new_content
        ++ ['\n'] ++ endMarker section_name)
      = some ((startMarker section_name ++ ['\n'] ++ new_content ++ ['\n']
          ++ endMarker section_name).map fun c => TemplateItem.lit [c]) := by
    rw [parse_template]
    exact parseTemplateF_no_backslash hrepl _ (Nat.le_refl _)
  simp only [update_readme_section]
  cases hs : searchPair (startMarker section_name) (endMarker section_name) content with
  | false => rfl
  | true =>
    simp only [hp]
    have hfun : (fun mid =>
          expandTemplate (startMarker section_name ++ mid ++ endMarker section_name)
            (startMarker section_name) mid (endMarker section_name)
            ((startMarker section_name ++ ['\n'] ++ new_content ++ ['\n']
              ++ endMarker section_name).map fun c => TemplateItem.lit [c]))
        = (fun _ : List Char => startMarker section_name ++ ['\n'] ++ new_content
            ++ ['\n'] ++ endMarker section_name) := by
      funext mid
      exact expandTemplate_all_lit _ _ _ _ _
    rw [hfun]

/-- **C8**: for every document in which the start/end marker pair for the
given section name does not occur, `update_readme_section` returns the
document unchanged (byte-identical), and raises no error: `pattern.sub`
(and with it the replacement-template processing) never runs, so the result
is `some content` for every body, including ones with bad escapes. -/
theorem C8_absent_markers_unchanged (content section_name new_content : List Char)
    (h : ∀ a b c, content ≠ a ++ startMarker section_name ++ b
        ++ endMarker section_name ++ c) :
    update_readme_section content section_name new_content = some content := by
  simp only [update_readme_section]
  cases hs : searchPair (startMarker section_name) (endMarker section_name) content with
  | false => rfl
  | true =>
    obtain ⟨a, b, c, hx⟩ := pair_occurs_of_searchPair hs
    exact absurd hx (h a b c)

theorem C8_absent_markers_unchanged_witness :
    update_readme_section ("hello".data) ("ACTIVITY".data) ("new".data)
      = some ("hello".data) := by
  apply C8_absent_markers_unchanged
  intro a b c hx
  have hl := congrArg List.length hx
  rw [List.length_append, List.length_append, List.length_append, List.length_append,
    startMarker_length, endMarker_length] at hl
  simp at hl
  omega

/-- **C6** counterexample: the claim quantifies over every document that
contains a start/end marker pair, but on a document with two pairs the text
outside the first pair is also rewritten, so it is not preserved. -/
theorem C6_counterexample :
    update_readme_section
        ("<!-- B_START -->a<!-- B_END --><!-- B_START -->b<!-- B_END -->".data)
        ("B".data) ("n".data)
      = some ("<!-- B_START -->\nn\n<!-- B_END --><!-- B_START -->\nn\n<!-- B_END -->".data)
    ∧ update_readme_section
        ("<!-- B_START -->a<!-- B_END --><!-- B_START -->b<!-- B_END -->".data)
        ("B".data) ("n".data)
      ≠ some ("<!-- B_START -->\nn\n<!-- B_END --><!-- B_START -->b<!-- B_END -->".data) := by
  constructor
  · decide
  · decide

/-- **C6** (amended): on a document with exactly one marker pair — written
`a ++ START ++ m ++ END ++ b` with no earlier or straddling occurrence of
START in `a`, none of END in `m`, and no occurrence of START in `b` — and
for a section name and body free of backslashes (so the replacement
template is literal and `re.sub` raises no error), the patcher replaces the
pair's body with `START \n body \n END` and preserves all surrounding
text. -/
theorem C6_single_pair_replaced (section_name a m b new_content : List Char)
    (hn : '\\' ∉ section_name) (hb : '\\' ∉ new_content)
    (h1 : clean (startMarker section_name) a)
    (h2 : clean (endMarker section_name) m)
    (h3 : splitFirst (startMarker section_name) b = none) :
    update_readme_section
        (a ++ startMarker section_name ++ m ++ endMarker section_name ++ b)
        section_name new_content
      = some (a ++ startMarker section_name ++ ['\n'] ++ new_content ++ ['\n']
          ++ endMarker section_name ++ b) := by
  have hS := startMarker_ne_nil section_name
  have hd : a ++ startMarker section_name ++ m ++ endMarker section_name ++ b
      = (a ++ startMarker section_name) ++ ((m ++ endMarker section_name) ++ b) := by
    simp [List.append_assoc]
  have hsp1 := clean_split h1 ((m ++ endMarker section_name) ++ b)
  have hsp2 := clean_split h2 b
  have hsearch := searchPair_true hsp1 (by rw [hsp2]; rfl)
  rw [update_readme_section_no_backslash _ _ _ hn hb, hd, hsearch, if_pos rfl]
  have hstep : subAll (startMarker section_name) (endMarker section_name)
        (fun _ => startMarker section_name ++ ['\n'] ++ new_content ++ ['\n']
          ++ endMarker section_name)
        ((a ++ startMarker section_name) ++ ((m ++ endMarker section_name) ++ b))
      = a ++ (startMarker section_name ++ ['\n'] ++ new_content ++ ['\n']
          ++ endMarker section_name)
        ++ subAll (startMarker section_name) (endMarker section_name)
            (fun _ => startMarker section_name ++ ['\n'] ++ new_content ++ ['\n']
              ++ endMarker section_name) b :=
    subAll_step hS hsp1 hsp2
  rw [hstep, subAll_no_start h3]
  simp [List.append_assoc]

theorem C6_single_pair_replaced_witness :
    update_readme_section ("X <!-- ACTIVITY_START -->old<!-- ACTIVITY_END --> Y".data)
        ("ACTIVITY".data) ("new".data)
      = some ("X <!-- ACTIVITY_START -->\nnew\n<!-- ACTIVITY_END --> Y".data) := by
  have h := C6_single_pair_replaced ("ACTIVITY".data) ("X ".data) ("old".data)
    (" Y".data) ("new".data) (by decide) (by decide) (by decide) (by decide) (by decide)
  exact (by decide :
      ("X <!-- ACTIVITY_START -->old<!-- ACTIVITY_END --> Y".data)
        = ("X ".data) ++ startMarker ("ACTIVITY".data) ++ ("old".data)
            ++ endMarker ("ACTIVITY".data) ++ (" Y".data)) ▸ h |>.trans (by decide)

/-- **C1** counterexample: `pattern.sub` with no count replaces every
non-overlapping match, so on a document with two pairs for the same section
the second pair's body is also replaced, contradicting the claim that only
the first pair is rewritten and later occurrences are left unchanged. -/
theorem C1_counterexample :
    update_readme_section
        ("<!-- A_START -->a<!-- A_END --><!-- A_START -->b<!-- A_END -->".data)
        ("A".data) ("n".data)
      = some ("<!-- A_START -->\nn\n<!-- A_END --><!-- A_START -->\nn\n<!-- A_END -->".data)
    ∧ update_readme_section
        ("<!-- A_START -->a<!-- A_END --><!-- A_START -->b<!-- A_END -->".data)
        ("A".data) ("n".data)
      ≠ some ("<!-- A_START -->\nn\n<!-- A_END --><!-- A_START -->b<!-- A_END -->".data) := by
  constructor
  · decide
  · decide

/-- **C1** (amended): `update_readme_section` performs a global
replacement: on a document with two start/end pairs for the section (each
marker occurring only at its designated place), with a backslash-free
section name and body (so the replacement template is literal), *both*
pairs are rewritten to `START \n body \n END`. -/
theorem C1_replaces_every_pair (section_name new_content a m1 mid m2 post : List Char)
    (hn : '\\' ∉ section_name) (hb : '\\' ∉ new_content)
    (h1 : clean (startMarker section_name) a)
    (h2 : clean (endMarker section_name) m1)
    (h3 : clean (startMarker section_name) mid)
    (h4 : clean (endMarker section_name) m2)
    (h5 : splitFirst (startMarker section_name) post = none) :
    update_readme_section
        (a ++ startMarker section_name ++ m1 ++ endMarker section_name
          ++ mid ++ startMarker section_name ++ m2 ++ endMarker section_name ++ post)
        section_name new_content
      = some (a ++ startMarker section_name ++ ['\n'] ++ new_content ++ ['\n']
          ++ endMarker section_name
          ++ mid ++ startMarker section_name ++ ['\n'] ++ new_content ++ ['\n']
          ++ endMarker section_name ++ post) := by
  have hS := startMarker_ne_nil section_name
  have hd : a ++ startMarker section_name ++ m1 ++ endMarker section_name
        ++ mid ++ startMarker section_name ++ m2 ++ endMarker section_name ++ post
      = (a ++ startMarker section_name)
          ++ ((m1 ++ endMarker section_name)
            ++ ((mid ++ startMarker section_name)
              ++ ((m2 ++ endMarker section_name) ++ post))) := by
    simp [List.append_assoc]
  have hsp1 := clean_split h1 ((m1 ++ endMarker section_name)
    ++ ((mid ++ startMarker section_name) ++ ((m2 ++ endMarker section_name) ++ post)))
  have hsp2 := clean_split h2
    ((mid ++ startMarker section_name) ++ ((m2 ++ endMarker section_name) ++ post))
  have hsp3 := clean_split h3 ((m2 ++ endMarker section_name) ++ post)
  have hsp4 := clean_split h4 post
  have hsearch := searchPair_true hsp1 (by rw [hsp2]; rfl)
  rw [update_readme_section_no_backslash _ _ _ hn hb, hd, hsearch, if_pos rfl]
  have hstep1 : subAll (startMarker section_name) (endMarker section_name)
        (fun _ => startMarker section_name ++ ['\n'] ++ new_content ++ ['\n']
          ++ endMarker section_name)
        ((a ++ startMarker section_name)
          ++ ((m1 ++ endMarker section_name)
            ++ ((mid ++ startMarker section_name)
              ++ ((m2 ++ endMarker section_name) ++ post))))
      = a ++ (startMarker section_name ++ ['\n'] ++ new_content ++ ['\n']
          ++ endMarker section_name)
        ++ subAll (startMarker section_name) (endMarker section_name)
            (fun _ => startMarker section_name ++ ['\n'] ++ new_content ++ ['\n']
              ++ endMarker section_name)
            ((mid ++ startMarker section_name) ++ ((m2 ++ endMarker section_name) ++ post)) :=
    subAll_step hS hsp1 hsp2
  have hstep2 : subAll (startMarker section_name) (endMarker section_name)
        (fun _ => startMarker section_name ++ ['\n'] ++ new_content ++ ['\n']
          ++ endMarker section_name)
        ((mid ++ startMarker section_name) ++ ((m2 ++ endMarker section_name) ++ post))
      = mid ++ (startMarker section_name ++ ['\n'] ++ new_content ++ ['\n']
          ++ endMarker section_name)
        ++ subAll (startMarker section_name) (endMarker section_name)
            (fun _ => startMarker section_name ++ ['\n'] ++ new_content ++ ['\n']
              ++ endMarker section_name) post :=
    subAll_step hS hsp3 hsp4
  rw [hstep1, hstep2, subAll_no_start h5]
  simp [List.append_assoc]

theorem C1_replaces_every_pair_witness :
    update_readme_section
        (("x".data) ++ startMarker ("A".data) ++ ("1".data) ++ endMarker ("A".data)
          ++ ("y".data) ++ startMarker ("A".data) ++ ("2".data) ++ endMarker ("A".data)
          ++ ("z".data))
        ("A".data) ("n".data)
      = some (("x".data) ++ startMarker ("A".data) ++ ['\n'] ++ ("n".data) ++ ['\n']
          ++ endMarker ("A".data)
          ++ ("y".data) ++ startMarker ("A".data) ++ ['\n'] ++ ("n".data) ++ ['\n']
          ++ endMarker ("A".data) ++ ("z".data)) :=
  C1_replaces_every_pair ("A".data) ("n".data) ("x".data) ("1".data) ("y".data)
    ("2".data) ("z".data) (by decide) (by decide) (by decide) (by decide) (by decide)
    (by decide) (by decide)

/-- **C7** counterexample: patching is not idempotent for every body.  When
the new body itself contains the end marker, the second run pairs the start
marker with the end marker inside the previously inserted body and the
document grows: one application yields the document below, and applying the
patcher to that document does not return it unchanged. -/
theorem C7_counterexample :
    update_readme_section ("<!-- A_START -->x<!-- A_END -->".data) ("A".data)
        ("<!-- A_END -->".data)
      = some ("<!-- A_START -->\n<!-- A_END -->\n<!-- A_END -->".data)
    ∧ update_readme_section ("<!-- A_START -->\n<!-- A_END -->\n<!-- A_END -->".data)
        ("A".data) ("<!-- A_END -->".data)
      ≠ some ("<!-- A_START -->\n<!-- A_END -->\n<!-- A_END -->".data) := by
  constructor
  · decide
  · decide

/-- **C7** (amended): for every document, section name and body such that
(i) the section name and the body are free of backslashes (so the
replacement template is literal and `re.sub` raises no error) and (ii) the
end marker does not occur inside (or straddling out of) the inserted text
`\n body \n`, patching is idempotent: whenever one application returns a
document, applying the patcher to that document returns it unchanged. -/
theorem C7_idempotent (content section_name new_content d : List Char)
    (hn : '\\' ∉ section_name) (hb : '\\' ∉ new_content)
    (hw : clean (endMarker section_name) (['\n'] ++ new_content ++ ['\n']))
    (hd : update_readme_section content section_name new_content = some d) :
    update_readme_section d section_name new_content = some d := by
  have hS := startMarker_ne_nil section_name
  have hrep : (fun _ : List Char => startMarker section_name ++ ['\n'] ++ new_content
        ++ ['\n'] ++ endMarker section_name)
      = (fun _ : List Char => startMarker section_name
          ++ (['\n'] ++ new_content ++ ['\n']) ++ endMarker section_name) := by
    funext x
    simp [List.append_assoc]
  rw [update_readme_section_no_backslash _ _ _ hn hb] at hd
  rw [update_readme_section_no_backslash _ _ _ hn hb]
  by_cases hs : searchPair (startMarker section_name) (endMarker section_name)
      content = true
  · rw [hs, if_pos rfl] at hd
    injection hd with hd
    subst hd
    by_cases hs2 : searchPair (startMarker section_name) (endMarker section_name)
        (subAll (startMarker section_name) (endMarker section_name)
          (fun _ => startMarker section_name ++ ['\n'] ++ new_content ++ ['\n']
            ++ endMarker section_name) content) = true
    · rw [hs2, if_pos rfl, hrep, subAll_idem hS hw content]
    · rw [if_neg hs2]
  · rw [Bool.not_eq_true] at hs
    rw [hs] at hd
    injection hd with hd
    subst hd
    rw [hs]
    rfl

theorem C7_idempotent_witness :
    update_readme_section
        ("X <!-- ACTIVITY_START -->\nnew\n<!-- ACTIVITY_END --> Y".data)
        ("ACTIVITY".data) ("new".data)
      = some ("X <!-- ACTIVITY_START -->\nnew\n<!-- ACTIVITY_END --> Y".data) :=
  C7_idempotent ("X <!-- ACTIVITY_START -->old<!-- ACTIVITY_END --> Y".data)
    ("ACTIVITY".data) ("new".data)
    ("X <!-- ACTIVITY_START -->\nnew\n<!-- ACTIVITY_END --> Y".data)
    (by decide) (by decide) (by decide) (by decide)

theorem strLt_irrefl : ∀ l : List Char, strLt l l = false := by
  intro l
  induction l with
  | nil => rfl
  | cons a as ih => simp [strLt, Nat.lt_irrefl, ih]

theorem strLt_asymm {a b : List Char} (h : strLt a b = true) : strLt b a = false := by
  induction a generalizing b with
  | nil =>
    cases b with
    | nil => simp [strLt] at h
    | cons y ys => rfl
  | cons x xs ih =>
    cases b with
    | nil => simp [strLt] at h
    | cons y ys =>
      rw [strLt] at h ⊢
      by_cases h1 : x.toNat < y.toNat
      · rw [if_neg (by omega : ¬ y.toNat < x.toNat), if_pos h1]
      · rw [if_neg h1] at h
        by_cases h2 : y.toNat < x.toNat
        · rw [if_pos h2] at h
          exact absurd h (by simp)
        · rw [if_neg h2] at h
          rw [if_neg h2, if_neg h1]
          exact ih h

theorem strLt_false_trans {a : List Char} : ∀ {b c : List Char},
    strLt a b = false → strLt b c = false → strLt a c = false := by
  induction a with
  | nil =>
    intro b c h1 h2
    cases c with
    | nil => rfl
    | cons z zs =>
      cases b with
      | nil => simp [strLt] at h2
      | cons y ys => simp [strLt] at h1
  | cons x xs ih =>
    intro b c h1 h2
    cases c with
    | nil => rfl
    | cons z zs =>
      cases b with
      | nil => simp [strLt] at h2
      | cons y ys =>
        rw [strLt] at h1 h2 ⊢
        by_cases hxy : x.toNat < y.toNat
        · rw [if_pos hxy] at h1
          exact absurd h1 (by simp)
        · rw [if_neg hxy] at h1
          by_cases hyz : y.toNat < z.toNat
          · rw [if_pos hyz] at h2
            exact absurd h2 (by simp)
          · rw [if_neg hyz] at h2
            by_cases hyx : y.toNat < x.toNat
            · rw [if_neg (by omega : ¬ x.toNat < z.toNat),
                if_pos (by omega : z.toNat < x.toNat)]
            · rw [if_neg hyx] at h1
              by_cases hzy : z.toNat < y.toNat
              · rw [if_neg (by omega : ¬ x.toNat < z.toNat),
                  if_pos (by omega : z.toNat < x.toNat)]
              · rw [if_neg hzy] at h2
                rw [if_neg (by omega : ¬ x.toNat < z.toNat),
                  if_neg (by omega : ¬ z.toNat < x.toNat)]
                exact ih h1 h2

theorem mem_insertByKeyDesc {α : Type} {key : α → List Char} {x z : α} :
    ∀ {l : List α}, z ∈ insertByKeyDesc key x l ↔ z = x ∨ z ∈ l := by
  intro l
  induction l with
  | nil => simp [insertByKeyDesc]
  | cons y ys ih =>
    rw [insertByKeyDesc]
    by_cases h : strLt (key x) (key y) = true
    · rw [if_pos h]
      simp only [List.mem_cons, ih]
      tauto
    · rw [if_neg h]
      simp only [List.mem_cons]

theorem insertByKeyDesc_sorted {α : Type} {key : α → List Char} {x : α} {l : List α}
    (hl : List.Pairwise (fun u v => strLt (key u) (key v) = false) l) :
    List.Pairwise (fun u v => strLt (key u) (key v) = false)
      (insertByKeyDesc key x l) := by
  induction l with
  | nil => simp [insertByKeyDesc]
  | cons y ys ih =>
    rw [insertByKeyDesc]
    rcases List.pairwise_cons.mp hl with ⟨hy, hys⟩
    by_cases h : strLt (key x) (key y) = true
    · rw [if_pos h]
      refine List.pairwise_cons.mpr ⟨?_, ih hys⟩
      intro z hz
      rcases mem_insertByKeyDesc.mp hz with rfl | hz'
      · exact strLt_asymm h
      · exact hy z hz'
    · rw [if_neg h]
      have hf : strLt (key x) (key y) = false := by simpa using h
      refine List.pairwise_cons.mpr ⟨?_, hl⟩
      intro z hz
      rcases List.mem_cons.mp hz with rfl | hz'
      · exact hf
      · exact strLt_false_trans hf (hy z hz')

theorem sortByKeyDesc_sorted {α : Type} (key : α → List Char) :
    ∀ l : List α,
      List.Pairwise (fun u v => strLt (key u) (key v) = false) (sortByKeyDesc key l) := by
  intro l
  induction l with
  | nil => simp [sortByKeyDesc]
  | cons x xs ih =>
    rw [sortByKeyDesc]
    exact insertByKeyDesc_sorted ih

theorem filter_insertByKeyDesc {α : Type} {key : α → List Char} {x : α} {t : List Char} :
    ∀ {l : List α},
      (insertByKeyDesc key x l).filter (fun z => decide (key z = t))
        = if key x = t then x :: l.filter (fun z => decide (key z = t))
          else l.filter (fun z => decide (key z = t)) := by
  intro l
  induction l with
  | nil => by_cases hx : key x = t <;> simp [insertByKeyDesc, hx]
  | cons y ys ih =>
    rw [insertByKeyDesc]
    by_cases h : strLt (key x) (key y) = true
    · rw [if_pos h]
      by_cases hy : key y = t
      · have hx : ¬ key x = t := by
          intro hx
          rw [hx, hy, strLt_irrefl] at h
          exact absurd h (by simp)
        simp [List.filter_cons, hy, hx, ih]
      · by_cases hx : key x = t <;> simp [List.filter_cons, hy, hx, ih]
    · rw [if_neg h]
      by_cases hx : key x = t <;> simp [List.filter_cons, hx]

theorem filter_sortByKeyDesc {α : Type} {key : α → List Char} {t : List Char} :
    ∀ l : List α,
      (sortByKeyDesc key l).filter (fun z => decide (key z = t))
        = l.filter (fun z => decide (key z = t)) := by
  intro l
  induction l with
  | nil => rfl
  | cons x xs ih =>
    rw [sortByKeyDesc, filter_insertByKeyDesc]
    by_cases hx : key x = t <;> simp [List.filter_cons, hx, ih]

/-- **C2**: `get_all_activity` is the two collectors' outputs concatenated
(owned repositories first), sorted descending by the `latest_activity`
string (lexicographic comparison), truncated to `limit`; the sort is stable
(records with equal timestamps keep the concatenation order, so owned-repo
records precede contribution records on ties, shown by the filter
identity); and on RepoA at T1 and ContribB at T2 with T2 > T1 the output is
`[ContribB, RepoA]`. -/
theorem C2_merge_sort_truncate (own_repos contributions : List Activity) (limit : Nat) :
    get_all_activity own_repos contributions limit
      = (sortByKeyDesc Activity.latest_activity (own_repos ++ contributions)).take limit
    ∧ List.Pairwise
        (fun u v => strLt u.latest_activity v.latest_activity = false)
        (sortByKeyDesc Activity.latest_activity (own_repos ++ contributions))
    ∧ (∀ t : List Char,
        (sortByKeyDesc Activity.latest_activity (own_repos ++ contributions)).filter
            (fun z => decide (z.latest_activity = t))
          = (own_repos ++ contributions).filter
              (fun z => decide (z.latest_activity = t)))
    ∧ get_all_activity
          [Activity.repo ⟨"RepoA".data, "ua".data, 1, false, none, none,
            "2025-01-01T00:00:00Z".data⟩]
          [Activity.contribution ⟨"o/ContribB".data, "ub".data, 2,
            "2025-02-01T00:00:00Z".data⟩] 10
        = [Activity.contribution ⟨"o/ContribB".data, "ub".data, 2,
            "2025-02-01T00:00:00Z".data⟩,
           Activity.repo ⟨"RepoA".data, "ua".data, 1, false, none, none,
            "2025-01-01T00:00:00Z".data⟩] :=
  ⟨rfl, sortByKeyDesc_sorted _ _, fun _ => filter_sortByKeyDesc _, by decide⟩

theorem processRepo_some {cutoff : List Char} {repo : RepoData} {rec : RepoRecord}
    (h : processRepo cutoff repo = some rec) :
    rec.commit_count = commitCount repo ∧ commitCount repo ≠ 0
    ∧ rec.latest_tag = (tagSelection cutoff repo).1
    ∧ rec.latest_tag_url = (tagSelection cutoff repo).2 := by
  rw [processRepo] at h
  split at h
  · exact absurd h (by simp)
  split at h
  · exact absurd h (by simp)
  split at h
  · exact absurd h (by simp)
  split at h
  · exact absurd h (by simp)
  split at h
  · exact absurd h (by simp)
  split at h
  · exact absurd h (by simp)
  rename_i hcc
  injection h with h
  subst h
  exact ⟨rfl, hcc, rfl, rfl⟩

theorem tagSelection_pair (cutoff : List Char) (repo : RepoData) :
    ((tagSelection cutoff repo).1 = none ∧ (tagSelection cutoff repo).2 = none)
    ∨ ∃ s u, (tagSelection cutoff repo).1 = some s
        ∧ (tagSelection cutoff repo).2 = some u := by
  simp only [tagSelection]
  split
  · split
    · cases hr : recentReleases cutoff repo
      · exact Or.inl ⟨rfl, rfl⟩
      · exact Or.inr ⟨_, _, rfl, rfl⟩
    · cases hr : recentReleases cutoff repo
      · exact Or.inl ⟨rfl, rfl⟩
      · exact Or.inr ⟨_, _, rfl, rfl⟩
    · exact Or.inr ⟨_, _, rfl, rfl⟩
  · cases hr : recentReleases cutoff repo
    · exact Or.inl ⟨rfl, rfl⟩
    · exact Or.inr ⟨_, _, rfl, rfl⟩

theorem tagSelection_release {cutoff : List Char} {repo : RepoData} {r : Release}
    {rest : List Release} (hr : recentReleases cutoff repo = r :: rest)
    (hne : r.tag_name ≠ []) :
    tagSelection cutoff repo = (some r.tag_name, some r.html_url) := by
  simp only [tagSelection, hr]
  rw [if_neg (by simp [optStrFalsy, List.isEmpty_iff, hne])]

theorem tagSelection_tags {cutoff : List Char} {repo : RepoData} {t : Tag}
    {ts : List Tag} (hr : recentReleases cutoff repo = [])
    (ht : repo.tags = some (t :: ts)) :
    tagSelection cutoff repo
      = (some t.name, some (repo.html_url ++ "/releases/tag/".data ++ t.name)) := by
  simp only [tagSelection, hr, ht]
  rfl

/-- **C3**: a repository whose `pushed_at` is missing or earlier than the
cutoff, or whose commit count since the cutoff is 0 (including a failed
commits fetch), contributes no record: its loop iteration yields `none` and
dropping it from the input leaves `get_own_repos_activity` unchanged. -/
theorem C3_skip_stale_or_commitless (cutoff : List Char) (repo : RepoData)
    (h : repo.pushed_at = none
      ∨ (∃ p, repo.pushed_at = some p ∧ strLt p cutoff = true)
      ∨ commitCount repo = 0) :
    processRepo cutoff repo = none
    ∧ ∀ rest, get_own_repos_activity cutoff (some (repo :: rest))
        = get_own_repos_activity cutoff (some rest) := by
  have hnone : processRepo cutoff repo = none := by
    rw [processRepo]
    split
    · rfl
    split
    · rfl
    split
    · rfl
    rename_i p hpa
    split
    · rfl
    split
    · rfl
    split
    · rfl
    rename_i hni hnlt hncc
    exfalso
    rcases h with h1 | ⟨q, hq, hlt⟩ | h3
    · rw [hpa] at h1; exact absurd h1 (by simp)
    · rw [hpa] at hq
      injection hq with hq
      subst hq
      exact hnlt hlt
    · exact hncc h3
  refine ⟨hnone, ?_⟩
  intro rest
  rw [get_own_repos_activity, get_own_repos_activity]
  cases rest with
  | nil => simp [List.filterMap_cons, hnone]
  | cons r rs => simp [List.filterMap_cons, hnone]

theorem C3_skip_stale_or_commitless_witness :
    processRepo ("2025-01-01T00:00:00Z".data)
      ⟨false, "r".data, "u".data, none, some [()], none, none⟩ = none :=
  (C3_skip_stale_or_commitless ("2025-01-01T00:00:00Z".data)
    ⟨false, "r".data, "u".data, none, some [()], none, none⟩ (Or.inl rfl)).1

/-- **C4** counterexample: a release published after the cutoff whose
`tag_name` is the empty string is a qualifying release (`has_release` is
true), yet because `if not latest_tag:` treats `""` as falsy the record's
tag is taken from the tags list (`v9`, with a synthesized URL), not from
that release — so the rendered tag does not come from the first qualifying
release and the tags data is consulted. -/
theorem C4_counterexample :
    releaseRecent ("2025-01-01T00:00:00Z".data)
        ⟨some ("2025-03-01T00:00:00Z".data), [], "ru".data⟩ = true
    ∧ processRepo ("2025-01-01T00:00:00Z".data)
        ⟨false, "r".data, "hu".data, some ("2025-02-01T00:00:00Z".data), some [()],
          some [⟨some ("2025-03-01T00:00:00Z".data), [], "ru".data⟩],
          some [⟨"v9".data⟩]⟩
      = some ⟨"r".data, "hu".data, 1, true, some ("v9".data),
          some ("hu/releases/tag/v9".data), "2025-02-01T00:00:00Z".data⟩
    ∧ ("v9".data : List Char) ≠ [] := by
  refine ⟨by decide, by decide, by decide⟩

/-- **C4** (amended): for every emitted record, when the filtered recent
releases are non-empty and the first one's `tag_name` is non-empty, the
record's tag and URL come from that release (and, the repository's tags
field being universally quantified, independently of it); when no release
qualifies and the tags fetch returned a non-empty list, the tag is the
first tag's name with URL `<html_url>/releases/tag/<name>`. -/
theorem C4_tag_selection (cutoff : List Char) (repo : RepoData) (rec : RepoRecord)
    (h : processRepo cutoff repo = some rec) :
    (∀ r rest, recentReleases cutoff repo = r :: rest → r.tag_name ≠ [] →
        rec.latest_tag = some r.tag_name ∧ rec.latest_tag_url = some r.html_url)
    ∧ (recentReleases cutoff repo = [] →
        ∀ t ts, repo.tags = some (t :: ts) →
          rec.latest_tag = some t.name
          ∧ rec.latest_tag_url
              = some (repo.html_url ++ "/releases/tag/".data ++ t.name)) := by
  obtain ⟨-, -, h1, h2⟩ := processRepo_some h
  constructor
  · intro r rest hr hne
    rw [h1, h2, tagSelection_release hr hne]
    exact ⟨rfl, rfl⟩
  · intro hr t ts ht
    rw [h1, h2, tagSelection_tags hr ht]
    exact ⟨rfl, rfl⟩

theorem C4_tag_selection_witness :
    ((⟨"r".data, "hu".data, 1, true, some ("v1".data), some ("ru".data),
        "2025-02-01T00:00:00Z".data⟩ : RepoRecord).latest_tag = some ("v1".data))
    ∧ ((⟨"r".data, "hu".data, 1, true, some ("v1".data), some ("ru".data),
        "2025-02-01T00:00:00Z".data⟩ : RepoRecord).latest_tag_url
          = some ("ru".data)) :=
  (C4_tag_selection ("2025-01-01T00:00:00Z".data)
    ⟨false, "r".data, "hu".data, some ("2025-02-01T00:00:00Z".data), some [()],
      some [⟨some ("2025-03-01T00:00:00Z".data), "v1".data, "ru".data⟩],
      some [⟨"v9".data⟩]⟩
    ⟨"r".data, "hu".data, 1, true, some ("v1".data), some ("ru".data),
      "2025-02-01T00:00:00Z".data⟩ (by decide)).1
    ⟨some ("2025-03-01T00:00:00Z".data), "v1".data, "ru".data⟩ [] (by decide) (by decide)

/-- **C5**: a repository whose owner login is longer than 30 characters and
all of whose (lowercased) characters are hexadecimal digits is skipped by
`get_open_source_contributions` regardless of its PR contributions: its
loop iteration yields `none` and dropping it leaves the output unchanged. -/
theorem C5_skip_hashlike_owner (cutoff : List Char) (rc : RepoContribution)
    (hlen : 30 < rc.repository.owner_login.length)
    (hhex : (listLower rc.repository.owner_login).all
        (fun c => HEX_DIGITS.elem c) = true) :
    processContribRepo cutoff rc = none
    ∧ ∀ rest, get_open_source_contributions cutoff (some (rc :: rest))
        = get_open_source_contributions cutoff (some rest) := by
  have hnone : processContribRepo cutoff rc = none := by
    rw [processContribRepo]
    by_cases hp : rc.repository.isPrivate
    · rw [if_pos hp]
    · rw [if_neg hp]
      by_cases ho : listLower rc.repository.owner_login = listLower GITHUB_USERNAME
      · rw [if_pos ho]
      · rw [if_neg ho, if_pos (by rw [hhex, decide_eq_true hlen]; rfl)]
  refine ⟨hnone, ?_⟩
  intro rest
  rw [get_open_source_contributions, get_open_source_contributions]
  simp [List.filterMap_cons, hnone]

theorem C5_skip_hashlike_owner_witness :
    processContribRepo ("2025-01-01T00:00:00Z".data)
      ⟨⟨"o/x".data, "ux".data, false,
          "abcdefabcdefabcdefabcdefabcdefabcdef".data⟩,
        [⟨some ("2025-03-01T00:00:00Z".data)⟩]⟩ = none :=
  (C5_skip_hashlike_owner ("2025-01-01T00:00:00Z".data)
    ⟨⟨"o/x".data, "ux".data, false,
        "abcdefabcdefabcdefabcdefabcdefabcdef".data⟩,
      [⟨some ("2025-03-01T00:00:00Z".data)⟩]⟩ (by decide) (by decide)).1

/-- **C9**: an empty activity list renders exactly the placeholder. -/
theorem C9_empty_placeholder :
    generate_activity_markdown [] = "_No recent activity_".data := rfl

/-- **C10**: every record emitted by `get_own_repos_activity` is a repo
record with `commit_count ≥ 1` and a tag URL whenever it has a tag; hence
its rendered stats list starts with the commits stat, and a rendered tag
never interpolates a missing URL. -/
theorem C10_repo_record_invariants (cutoff : List Char) (repos : Option (List RepoData))
    (act : Activity) (hmem : act ∈ get_own_repos_activity cutoff repos) :
    ∃ rec, act = Activity.repo rec
      ∧ 1 ≤ rec.commit_count
      ∧ (rec.latest_tag.isSome = true → rec.latest_tag_url.isSome = true)
      ∧ ∃ rest, repoStats rec
          = (Nat.toDigits 10 rec.commit_count ++ " commits".data) :: rest := by
  cases repos with
  | none => simp [get_own_repos_activity] at hmem
  | some rs =>
    rw [get_own_repos_activity] at hmem
    by_cases he : rs.isEmpty
    · rw [if_pos he] at hmem; simp at hmem
    · rw [if_neg he] at hmem
      obtain ⟨repo, hrepo, hf⟩ := List.mem_filterMap.mp hmem
      obtain ⟨rec, hrec, hact⟩ := Option.map_eq_some'.mp hf
      obtain ⟨hcc, hne, h1, h2⟩ := processRepo_some hrec
      refine ⟨rec, hact.symm, by omega, ?_, ?_⟩
      · intro hsome
        rcases tagSelection_pair cutoff repo with ⟨ha, hb⟩ | ⟨s, u, ha, hb⟩
        · rw [h1, ha] at hsome; simp at hsome
        · rw [h2, hb]; rfl
      · exact ⟨(if optTruthy rec.latest_tag then
            ["[".data ++ optInterp rec.latest_tag ++ "](".data
              ++ optInterp rec.latest_tag_url ++ ")".data]
          else []), by rw [repoStats, if_pos (by omega : rec.commit_count > 0)]; rfl⟩

theorem C10_repo_record_invariants_witness : ∃ rec,
    Activity.repo (⟨"r".data, "u".data, 1, false, none, none,
        "2025-02-01T00:00:00Z".data⟩ : RepoRecord)
      = Activity.repo rec
    ∧ 1 ≤ rec.commit_count
    ∧ (rec.latest_tag.isSome = true → rec.latest_tag_url.isSome = true)
    ∧ ∃ rest, repoStats rec
        = (Nat.toDigits 10 rec.commit_count ++ " commits".data) :: rest :=
  C10_repo_record_invariants ("2025-01-01T00:00:00Z".data)
    (some [⟨false, "r".data, "u".data, some ("2025-02-01T00:00:00Z".data),
      some [()], none, none⟩])
    (Activity.repo ⟨"r".data, "u".data, 1, false, none, none,
      "2025-02-01T00:00:00Z".data⟩)
    (by decide)

end UpdateReadme
